import Mathlib

/-!
Verification of the hammertime time tracker (src/hammertime/__init__.py)
against its natural-language specification.

The Python code is shallowly embedded: the dynamically-typed values the
program manipulates (JSON data, `datetime`, `timedelta`) become the
inductive type `JVal`; `datetime` objects become the record `DT`;
`timedelta` objects are carried as a count of microseconds (`Int`, as
Python timedeltas are exact integer microsecond counts).  Functions that
can raise an uncaught Python exception return `Option` (`none` = the
exception escapes).  The textual JSON layer (`json.dumps`/`json.loads`
of plain lists, dicts, strings, numbers) is the standard library and is
not re-modelled; `encodeJ`/`applyHook` model exactly the parts this
repository adds on top of it: the `DatetimeEncoder` rendering and the
`datetime_hook` object hook.
-/

/-- A Gregorian calendar datetime, mirroring Python `datetime.datetime`
(year, month, day, hour, minute, second, microsecond). -/
structure DT where
  year : Nat
  month : Nat
  day : Nat
  hour : Nat
  minute : Nat
  second : Nat
  micro : Nat
deriving DecidableEq, Repr

/-- Leap year rule of the proleptic Gregorian calendar (as used by
Python `datetime`). -/
def isLeap (y : Nat) : Bool :=
  y % 4 = 0 && (y % 100 ≠ 0 || y % 400 = 0)

/-- Days in a month, as validated by the `datetime` constructor. -/
def daysInMonth (y m : Nat) : Nat :=
  if m = 2 then (if isLeap y then 29 else 28)
  else if m = 4 ∨ m = 6 ∨ m = 9 ∨ m = 11 then 30
  else 31

/-- The values Python `datetime` accepts (MINYEAR..MAXYEAR, calendar-valid
day, in-range time fields). -/
def DT.Valid (t : DT) : Prop :=
  1 ≤ t.year ∧ t.year ≤ 9999 ∧ 1 ≤ t.month ∧ t.month ≤ 12 ∧
  1 ≤ t.day ∧ t.day ≤ daysInMonth t.year t.month ∧
  t.hour ≤ 23 ∧ t.minute ≤ 59 ∧ t.second ≤ 59 ∧ t.micro ≤ 999999

instance (t : DT) : Decidable t.Valid := by
  unfold DT.Valid; infer_instance

/-- The decimal digit characters, by value (only used with arguments < 10). -/
def digitChar : Nat → Char
  | 0 => '0' | 1 => '1' | 2 => '2' | 3 => '3' | 4 => '4'
  | 5 => '5' | 6 => '6' | 7 => '7' | 8 => '8' | _ => '9'

/-- Value of a decimal digit character, by code point. -/
def digitVal (c : Char) : Option Nat :=
  if 48 ≤ c.toNat ∧ c.toNat ≤ 57 then some (c.toNat - 48) else none

def isDigitC (c : Char) : Bool := (digitVal c).isSome

/-- Two-digit zero-padded rendering, for `n ≤ 99` (Python `"%02d"`). -/
def pad2 (n : Nat) : List Char := [digitChar (n / 10), digitChar (n % 10)]

/-- Four-digit zero-padded rendering, for `n ≤ 9999` (Python `"%04d"`). -/
def pad4 (n : Nat) : List Char :=
  [digitChar (n / 1000), digitChar (n / 100 % 10),
   digitChar (n / 10 % 10), digitChar (n % 10)]

/-- Six-digit zero-padded rendering, for `n ≤ 999999` (Python `"%06d"`). -/
def pad6 (n : Nat) : List Char :=
  [digitChar (n / 100000), digitChar (n / 10000 % 10),
   digitChar (n / 1000 % 10), digitChar (n / 100 % 10),
   digitChar (n / 10 % 10), digitChar (n % 10)]

/-- Unpadded decimal rendering of a natural number (Python `"%d"`);
structural recursion on a fuel argument so that it evaluates by
reduction (`n + 1` fuel always suffices: a number has at most `n + 1`
digits). -/
def natDecAux : Nat → Nat → List Char
  | 0, _ => []
  | fuel + 1, n =>
    if n < 10 then [digitChar n]
    else natDecAux fuel (n / 10) ++ [digitChar (n % 10)]

def natDec (n : Nat) : List Char := natDecAux (n + 1) n

/-- Unpadded decimal rendering of an integer. -/
def intDec (n : Int) : List Char :=
  if n < 0 then '-' :: natDec n.natAbs else natDec n.natAbs

/-- Model of `datetime.isoformat()`: `YYYY-MM-DDTHH:MM:SS` followed by `.ffffff`
only when the microsecond field is nonzero. -/
def isoChars (t : DT) : List Char :=
  pad4 t.year ++ '-' :: pad2 t.month ++ '-' :: pad2 t.day ++
  'T' :: pad2 t.hour ++ ':' :: pad2 t.minute ++ ':' :: pad2 t.second ++
  (if t.micro = 0 then [] else '.' :: pad6 t.micro)

def isoformat (t : DT) : String := ⟨isoChars t⟩

/-- Days from 1970-01-01 in the proleptic Gregorian calendar (civil-date
algorithm); the basis of `datetime` subtraction. -/
def daysFromCivil (y m d : Nat) : Int :=
  let yy : Int := if m ≤ 2 then (y : Int) - 1 else (y : Int)
  let era : Int := Int.fdiv yy 400
  let yoe : Int := yy - era * 400
  let doy : Int := (153 * ((m : Int) + (if m > 2 then -3 else 9)) + 2) / 5 + (d : Int) - 1
  let doe : Int := yoe * 365 + yoe / 4 - yoe / 100 + doy
  era * 146097 + doe - 719468

/-- A datetime as an absolute count of microseconds; `a - b` on
datetimes is `DT.toUs a - DT.toUs b` microseconds. -/
def DT.toUs (t : DT) : Int :=
  ((daysFromCivil t.year t.month t.day) * 86400 +
    (t.hour : Int) * 3600 + (t.minute : Int) * 60 + (t.second : Int)) * 1000000
  + (t.micro : Int)

/-- Python `datetime` subtraction, as a timedelta in microseconds. -/
def dtSub (a b : DT) : Int := a.toUs - b.toUs

/-- Model of `str(timedelta)` for a timedelta of `us` microseconds.  Python
normalizes to `(days, seconds, microseconds)` with `0 ≤ seconds < 86400`
and `0 ≤ microseconds < 10^6` (days may be negative, floor division) and
renders `[D day(s), ]H:MM:SS[.ffffff]`.  Here the floor divisions are
composed as `us ÷ 10^6 ÷ 86400`, which equals Python's
`us ÷ (86400·10^6)`. -/
def tdBase (days : Int) (secs : Nat) : List Char :=
  let base : List Char :=
    natDec (secs / 3600) ++ ':' :: pad2 (secs / 60 % 60) ++ ':' :: pad2 (secs % 60)
  if days = 0 then base
  else intDec days ++
    (if days = 1 ∨ days = -1 then " day, ".data else " days, ".data) ++ base

def strTD (us : Int) : List Char :=
  let q : Int := Int.fdiv us 1000000
  let micro : Nat := (us - q * 1000000).toNat
  let days : Int := Int.fdiv q 86400
  let secs : Nat := (q - days * 86400).toNat
  tdBase days secs ++ (if micro = 0 then [] else '.' :: pad6 micro)

/-- The rendering `str(timedelta)` as a `String`. -/
def strTDs (us : Int) : String := ⟨strTD us⟩

/-- Model of `str(obj).split('.')[0]`: the rendering of a timedelta with its
fractional-second part dropped (`DatetimeEncoder.default`, timedelta
branch). -/
def encDelta (us : Int) : String := ⟨(strTD us).takeWhile (· ≠ '.')⟩

/-! ## The strptime parser

`datetime_hook` parses with
`datetime.strptime(s, '%Y-%m-%dT%H:%M:%S.%f')`.  CPython compiles the
format to a regex: `%Y` is exactly four digits, `%m`/`%d`/`%H`/`%M`/`%S`
are one or two digits constrained to their field ranges (two-digit
alternatives tried first), `%f` is one to six digits; the whole string
must be consumed, and the matched fields must yield a constructible
`datetime` (year ≥ 1, calendar-valid day). -/

/-- Read one or two digits, two-digit form preferred, value constrained
by `check` (the field-range alternation of the strptime regex). -/
def readNum2 (check : Nat → Bool) : List Char → Option (Nat × List Char)
  | c1 :: c2 :: rest =>
    match digitVal c1, digitVal c2 with
    | some a, some b =>
      if check (10 * a + b) then some (10 * a + b, rest)
      else if check a then some (a, c2 :: rest) else none
    | some a, none => if check a then some (a, c2 :: rest) else none
    | none, _ => none
  | [c1] =>
    match digitVal c1 with
    | some a => if check a then some (a, []) else none
    | none => none
  | [] => none

/-- Read exactly four digits (`%Y`). -/
def read4 : List Char → Option (Nat × List Char)
  | c1 :: c2 :: c3 :: c4 :: rest =>
    match digitVal c1, digitVal c2, digitVal c3, digitVal c4 with
    | some a, some b, some c, some d =>
        some (1000 * a + 100 * b + 10 * c + d, rest)
    | _, _, _, _ => none
  | _ => none

def expectChar (c : Char) : List Char → Option (List Char)
  | x :: rest => if x = c then some rest else none
  | [] => none

/-- Digit-list value, most significant first. -/
def digitsVal (ds : List Char) : Nat :=
  ds.foldl (fun acc c => 10 * acc + (digitVal c).getD 0) 0

/-- Reader for `%f` at the end of the format: one to six digits, right-padded with
zeros to microseconds, and nothing may remain after them. -/
def readFrac (cs : List Char) : Option Nat :=
  let ds := cs.takeWhile isDigitC
  if cs.drop ds.length = [] ∧ 1 ≤ ds.length ∧ ds.length ≤ 6 then
    some (digitsVal ds * 10 ^ (6 - ds.length))
  else none

/-- Model of `datetime.strptime(s, '%Y-%m-%dT%H:%M:%S.%f')`; `none` when it
raises `ValueError`. -/
def parseIsoChars (cs : List Char) : Option DT :=
  (read4 cs).bind fun p1 =>
  if p1.1 = 0 then none else
  (expectChar '-' p1.2).bind fun r2 =>
  (readNum2 (fun v => 1 ≤ v && v ≤ 12) r2).bind fun p2 =>
  (expectChar '-' p2.2).bind fun r4 =>
  (readNum2 (fun v => 1 ≤ v && v ≤ 31) r4).bind fun p3 =>
  (expectChar 'T' p3.2).bind fun r6 =>
  (readNum2 (fun v => v ≤ 23) r6).bind fun p4 =>
  (expectChar ':' p4.2).bind fun r8 =>
  (readNum2 (fun v => v ≤ 59) r8).bind fun p5 =>
  (expectChar ':' p5.2).bind fun r10 =>
  (readNum2 (fun v => v ≤ 61) r10).bind fun p6 =>
  (expectChar '.' p6.2).bind fun r12 =>
  (readFrac r12).bind fun f =>
  if p3.1 ≤ daysInMonth p1.1 p2.1 ∧ p6.1 ≤ 59 then
    some ⟨p1.1, p2.1, p3.1, p4.1, p5.1, p6.1, f⟩
  else none

def parseIso (s : String) : Option DT := parseIsoChars s.data

/-! ## The value universe -/

/-- The values the program manipulates: JSON data plus the Python
`datetime` and `timedelta` objects that live inside the timer dict
between decoding and encoding.  Dicts are association lists in insertion
order; JSON produced by `json.load` has no duplicate keys. -/
inductive JVal where
  | null : JVal
  | bool : Bool → JVal
  | num : Int → JVal
  | str : String → JVal
  | arr : List JVal → JVal
  | obj : List (String × JVal) → JVal
  | dt : DT → JVal
  | td : Int → JVal

/-- Python truthiness of the values above (`if obj.get('time', False):`,
`if time['start']['time']:`). -/
def truthy : JVal → Bool
  | .null => false
  | .bool b => b
  | .num n => n ≠ 0
  | .str s => !s.data.isEmpty
  | .arr xs => !xs.isEmpty
  | .obj kvs => !kvs.isEmpty
  | .dt _ => true
  | .td u => u ≠ 0

/-- Lookup `d[k]` / `d.get(k)`: first binding of `k`. -/
def lookupKey (kvs : List (String × JVal)) (k : String) : Option JVal :=
  match kvs with
  | [] => none
  | (k1, v1) :: rest => if k1 = k then some v1 else lookupKey rest k

/-- Assignment `d[k] = v`: replace the binding in place, or append if absent. -/
def setKey (kvs : List (String × JVal)) (k : String) (v : JVal) :
    List (String × JVal) :=
  match kvs with
  | [] => [(k, v)]
  | (k1, v1) :: rest =>
    if k1 = k then (k, v) :: rest else (k1, v1) :: setKey rest k v

/-! ## Decoding: `datetime_hook` and `json.load(..., object_hook=...)` -/

/-- Model of `datetime_hook(obj)`: when the dict has a truthy `'time'` value that
is a string parsing as `%Y-%m-%dT%H:%M:%S.%f`, replace it with the
parsed datetime.  Any exception raised inside the `try` (ValueError from
`strptime` on an unparseable string, TypeError on a non-string) is
discarded by the `return obj` in the `finally` block, so the dict is
returned with the value unchanged. -/
def datetime_hook (kvs : List (String × JVal)) : List (String × JVal) :=
  match lookupKey kvs "time" with
  | none => kvs
  | some v =>
    if truthy v then
      match v with
      | .str s =>
        match parseIso s with
        | some t => setKey kvs "time" (.dt t)
        | none => kvs
      | _ => kvs
    else kvs

mutual
/-- Model of `json.load(..., object_hook=datetime_hook)` over an already-parsed
JSON tree: the hook is applied to every object, innermost first. -/
def applyHook : JVal → JVal
  | .obj kvs => .obj (datetime_hook (applyHookKVs kvs))
  | .arr xs => .arr (applyHookList xs)
  | v => v

def applyHookList : List JVal → List JVal
  | [] => []
  | x :: xs => applyHook x :: applyHookList xs

def applyHookKVs : List (String × JVal) → List (String × JVal)
  | [] => []
  | (k, v) :: kvs => (k, applyHook v) :: applyHookKVs kvs
end

/-! ## Encoding: `json.dump(..., cls=DatetimeEncoder)` -/

mutual
/-- The JSON value whose text `json.dump(..., cls=DatetimeEncoder)`
writes: datetimes rendered with `isoformat()`, timedeltas with
`str(obj).split('.')[0]`; everything else is native JSON. -/
def encodeJ : JVal → JVal
  | .dt t => .str (isoformat t)
  | .td u => .str (encDelta u)
  | .arr xs => .arr (encodeJList xs)
  | .obj kvs => .obj (encodeJKVs kvs)
  | v => v

def encodeJList : List JVal → List JVal
  | [] => []
  | x :: xs => encodeJ x :: encodeJList xs

def encodeJKVs : List (String × JVal) → List (String × JVal)
  | [] => []
  | (k, v) :: kvs => (k, encodeJ v) :: encodeJKVs kvs
end

/-! ## The Timer container (`class Timer(dict)`) -/

/-- Model of `opts.message or None`: the optparse default `False` and the empty
string are both falsy and become `None`. -/
def msgJ : Option String → JVal
  | none => .null
  | some s => if s = "" then .null else .str s

/-- The dict literal `{'time': ..., 'message': opts.message or None}`. -/
def stampJ (now : DT) (msg : Option String) : JVal :=
  .obj [("time", .dt now), ("message", msgJ msg)]

/-- Model of `Timer.start`: `self['times'].append({'start': {...}})`.  `none`
models an uncaught exception (missing `'times'` key or a non-list
value).  Note the method never checks whether the last entry is still
running, despite its docstring "Start a new timer, if none active". -/
def timerStartJ (t : JVal) (now : DT) (msg : Option String) : Option JVal :=
  match t with
  | .obj tkvs =>
    match lookupKey tkvs "times" with
    | some (.arr xs) =>
      some (.obj (setKey tkvs "times"
        (.arr (xs ++ [.obj [("start", stampJ now msg)]]))))
    | _ => none
  | _ => none

/-- Model of `Timer.stop`: `time = self['times'][-1]` (IndexError on an empty
list), `time.update({'stop': {...}})`, then
`time['delta'] = now - time['start']['time']` when the start time is
truthy, else `time['delta'] = None`.  `none` models an uncaught
exception: empty list (IndexError), missing keys (KeyError), a
non-datetime truthy start time (TypeError in the subtraction). -/
def timerStopJ (t : JVal) (now : DT) (msg : Option String) : Option JVal :=
  match t with
  | .obj tkvs =>
    match lookupKey tkvs "times" with
    | some (.arr xs) =>
      match xs.getLast? with
      | none => none
      | some (.obj kvs) =>
        let kvs1 := setKey kvs "stop" (stampJ now msg)
        match lookupKey kvs1 "start" with
        | some (.obj skvs) =>
          match lookupKey skvs "time" with
          | some tv =>
            if truthy tv then
              match tv with
              | .dt d =>
                some (.obj (setKey tkvs "times" (.arr (xs.dropLast ++
                  [.obj (setKey kvs1 "delta" (.td (dtSub now d)))]))))
              | _ => none
            else
              some (.obj (setKey tkvs "times" (.arr (xs.dropLast ++
                [.obj (setKey kvs1 "delta" .null)]))))
          | none => none
        | _ => none
      | some _ => none
    | _ => none
  | _ => none

/-! ## `total` -/

/-- Python 2 `int(s)`: optional surrounding spaces, optional sign, one
or more decimal digits; `none` is `ValueError`. -/
def parsePyInt (cs0 : List Char) : Option Int :=
  let cs := (((cs0.dropWhile (· = ' ')).reverse.dropWhile (· = ' ')).reverse)
  let core : List Char → Option Int := fun ds =>
    if ds = [] then none
    else if ds.all isDigitC then some (digitsVal ds : Int) else none
  match cs with
  | '-' :: ds => (core ds).map (fun n => -n)
  | '+' :: ds => core ds
  | ds => core ds

/-- Python `s.split(':')` on the character list of a string. -/
def splitCols : List Char → List (List Char)
  | [] => [[]]
  | c :: rest =>
    if c = ':' then [] :: splitCols rest
    else
      match splitCols rest with
      | g :: gs => (c :: g) :: gs
      | [] => [[c]]

/-- Python 2 `map(int, parts)`: eager left-to-right, `none` as soon as
one part fails to parse. -/
def parseAllInts : List (List Char) → Option (List Int)
  | [] => some []
  | p :: rest =>
    match parsePyInt p, parseAllInts rest with
    | some v, some vs => some (v :: vs)
    | _, _ => none

/-- One iteration of the loop in `total`: the contribution of one entry,
or `none` for an exception the `except (KeyError, IndexError)` clause
does not catch.  Missing `'delta'` key → KeyError, caught → 0; fewer
than three split fields → IndexError at `bits[i]`, caught → 0 (the
eager Python 2 `map(int, ...)` has already succeeded); a field that is
not an integer → uncaught ValueError; a non-string delta →
uncaught AttributeError on `.split`; a non-dict entry → uncaught
TypeError on `time['delta']`. -/
def totalGo : List JVal → Int → Option Int
  | [], acc => some acc
  | x :: rest, acc =>
    match x with
    | .obj kvs =>
      match lookupKey kvs "delta" with
      | none => totalGo rest acc
      | some (.str s) =>
        match parseAllInts (splitCols s.data) with
        | none => none
        | some ints =>
          match ints with
          | h :: m :: sec :: _ =>
              totalGo rest (acc + (h * 3600 + m * 60 + sec))
          | _ => totalGo rest acc
      | some _ => none
    | _ => none

/-- Model of `total(repo, opts, timer)`: the total in seconds that gets printed,
`none` when an exception escapes (including a missing or non-list
`'times'`). -/
def totalJ (t : JVal) : Option Int :=
  match t with
  | .obj tkvs =>
    match lookupKey tkvs "times" with
    | some (.arr xs) => totalGo xs 0
    | _ => none
  | _ => none

/-! ## Loading (`init`): tolerant decode of the storage file -/

/-- A payload of the storage file as seen by `json.load`: either text
that raises `ValueError` (empty file, malformed JSON) or a parsed JSON
tree. -/
inductive Payload where
  | notJson : Payload
  | jsonOf : JVal → Payload

/-- The freshly-initialized store: `dict(times=[])`. -/
def emptyLog : JVal := .obj [("times", .arr [])]

/-- Model of `dict.update` from a sequence: each element must be a two-element
sequence; string keys only (non-string JSON keys cannot occur in this
store and are out of the modelled scope). -/
def pairsOf : List JVal → Option (List (String × JVal))
  | [] => some []
  | .arr [.str k, w] :: rest => (pairsOf rest).map (fun l => (k, w) :: l)
  | _ => none

/-- The load step of `init`: `json.load(..., object_hook=datetime_hook)`
with `except ValueError: data = dict(times=[])`, followed by
`timer = Timer(); timer.update(data)`.  `none` models the uncaught
TypeError/ValueError that `dict.update` raises on a scalar payload. -/
def initTimer : Payload → Option JVal
  | .notJson => some emptyLog
  | .jsonOf v =>
    match applyHook v with
    | .obj kvs => some (.obj kvs)
    | .arr xs => (pairsOf xs).map JVal.obj
    | _ => none

/-- Is the last entry of the log running (has a `'start'` but no
`'stop'`)?  The spec's precondition for `Start`. -/
def isRunningLast (t : JVal) : Bool :=
  match t with
  | .obj tkvs =>
    match lookupKey tkvs "times" with
    | some (.arr xs) =>
      match xs.getLast? with
      | some (.obj kvs) =>
        (lookupKey kvs "start").isSome && (lookupKey kvs "stop").isNone
      | _ => false
    | _ => false
  | _ => false

/-! ## The `main` workflow

`main()` is modelled as a function of an environment that fixes the
outcome of each fallible git/backend operation, returning the ordered
trace of backend actions, the final outcome, and the in-memory timer
after the command step.  The `try`/`finally` is explicit: the finally
block always runs; an exception raised by the checkout inside `finally`
replaces the body's exception (Python 2 semantics) and skips the stash
pop; the `try/except: pass` around `repo.git.stash('pop')` swallows any
pop failure. -/

inductive Cmd where
  | start | stop | show | total | default
deriving DecidableEq, Repr

/-- Backend operations in the order they are invoked. -/
inductive Act where
  | stashSave : Act
  | branchCreate : String → Act
  | checkout : String → Act
  | stage : Act
  | commit : String → Act
  | stashPop : Act
deriving DecidableEq, Repr

inductive MErr where
  | stashFail | createFail | checkoutTrackFail | loadFail | cmdFail
  | commitFail | checkoutOrigFail
deriving DecidableEq, Repr

inductive Outcome where
  | ok : Outcome
  | exited : Nat → Outcome
  | raised : MErr → Outcome
deriving DecidableEq, Repr

/-- The parsed option values (`opts`). -/
structure Config where
  branch : String
  message : Option String

/-- The commit message `opts.message or 'Hammertime!'`. -/
def commitMsg (c : Config) : String :=
  match c.message with
  | none => "Hammertime!"
  | some s => if s = "" then "Hammertime!" else s

/-- Environment of one invocation: repository state and the outcome of
each fallible backend call. -/
structure Env where
  repoValid : Bool
  cmdKnown : Bool
  headsNonempty : Bool
  origBranch : String
  stashOk : Bool
  trackExists : Bool
  createOk : Bool
  checkoutTrackOk : Bool
  payload : Payload
  commitOk : Bool
  checkoutOrigOk : Bool
  popOk : Bool

structure RunResult where
  trace : List Act
  outcome : Outcome
  timerAfter : Option JVal

/-- The `try` body of `main`: stash, `init` (branch ensure + checkout +
load), dispatch the command, and persist for the mutating commands.
Returns the actions performed, the exception that escaped the body (if
any), and the timer after the command step (`none` when that point was
not reached or a mutating command failed mid-way). -/
def runBody (env : Env) (cfg : Config) (cmd : Cmd) (now : DT) :
    List Act × Option MErr × Option JVal :=
  -- branch = repo.head.reference; repo.git.stash()
  if ¬ env.stashOk then ([.stashSave], some .stashFail, none)
  else
    let acts0 : List Act := [.stashSave]
    -- init: ensure the tracking branch exists, then check it out
    let acts1 := acts0 ++
      (if env.trackExists then [] else [.branchCreate cfg.branch])
    if ¬ env.trackExists ∧ ¬ env.createOk then (acts1, some .createFail, none)
    else
      let acts2 := acts1 ++ [.checkout cfg.branch]
      if ¬ env.checkoutTrackOk then (acts2, some .checkoutTrackFail, none)
      else
        -- folder/file creation (os calls, not backend actions), then load
        match initTimer env.payload with
        | none => (acts2, some .loadFail, none)
        | some timer =>
          -- commands[cmd](repo, opts, timer)
          let stepped : Option JVal :=
            match cmd with
            | .start => timerStartJ timer now cfg.message
            | .stop => timerStopJ timer now cfg.message
            | .show => some timer
            | .total =>
              match totalJ timer with
              | none => none
              | some _ => some timer
            | .default => some timer
          match stepped with
          | none => (acts2, some .cmdFail, none)
          | some timer2 =>
            -- if cmd in ['start', 'stop']: write(repo, opts, timer)
            if cmd = .start ∨ cmd = .stop then
              let acts3 := acts2 ++ [.stage, .commit (commitMsg cfg)]
              if env.commitOk then (acts3, none, some timer2)
              else (acts3, some .commitFail, some timer2)
            else (acts2, none, some timer2)

/-- Model of `main()`. -/
def runMain (env : Env) (cfg : Config) (cmd : Cmd) (now : DT) : RunResult :=
  if ¬ env.repoValid then { trace := [], outcome := .exited 1, timerAfter := none }
  else if ¬ env.cmdKnown then { trace := [], outcome := .exited 1, timerAfter := none }
  else if ¬ env.headsNonempty then { trace := [], outcome := .exited 1, timerAfter := none }
  else
    let (bacts, berr, tafter) := runBody env cfg cmd now
    -- finally: getattr(repo.heads, branch.name).checkout()
    if ¬ env.checkoutOrigOk then
      { trace := bacts ++ [.checkout env.origBranch],
        outcome := .raised .checkoutOrigFail, timerAfter := tafter }
    else
      -- try: repo.git.stash('pop') except: pass
      { trace := bacts ++ [.checkout env.origBranch, .stashPop],
        outcome := match berr with | none => .ok | some e => .raised e,
        timerAfter := tafter }

/-! ## Typed logs, for quantifying over "all logs L" (C4/C9)

An in-memory log as the program builds it: entries whose `start` / `stop`
stamps hold `datetime` objects and whose `delta` (when present) is a
`timedelta`.  `logJ` injects such a log into the value universe; it is
what `json.dump` receives. -/

structure Stamp where
  time : DT
  message : Option String

structure TEntry where
  start : Stamp
  stop : Option Stamp
  delta : Option Int

def stampToJ (st : Stamp) : JVal :=
  .obj [("time", .dt st.time),
        ("message", match st.message with | none => .null | some s => .str s)]

def entryToJ (e : TEntry) : JVal :=
  .obj ([("start", stampToJ e.start)] ++
    (match e.stop with | some st => [("stop", stampToJ st)] | none => []) ++
    (match e.delta with | some d => [("delta", .td d)] | none => []))

def logJ (L : List TEntry) : JVal := .obj [("times", .arr (L.map entryToJ))]

/-- A timedelta truncated to whole seconds (floor, matching the string
truncation `str(td).split('.')[0]`). -/
def wholeSecUs (us : Int) : Int := Int.fdiv us 1000000 * 1000000

/-- The value `Decode(Encode(L))` is expected to reconstruct: stamps
verbatim, each delta as the `H:MM:SS`-style string of its
whole-second truncation. -/
def entryImage (e : TEntry) : JVal :=
  .obj ([("start", stampToJ e.start)] ++
    (match e.stop with | some st => [("stop", stampToJ st)] | none => []) ++
    (match e.delta with
     | some d => [("delta", .str (strTDs (wholeSecUs d)))]
     | none => []))

def decodeImage (L : List TEntry) : JVal :=
  .obj [("times", .arr (L.map entryImage))]

/-- Timestamps the strptime format can reproduce: valid and with a
nonzero microsecond field (`isoformat` omits `.ffffff` when it is 0). -/
def stampOkB (st : Stamp) : Bool :=
  decide st.time.Valid && decide (st.time.micro ≠ 0)

def entryOkB (e : TEntry) : Bool :=
  stampOkB e.start &&
  (match e.stop with | some st => stampOkB st | none => true)

/-- The number of seconds one entry contributes to `total`: the first
three colon-separated integers of its delta as `h*3600 + m*60 + s`, and
zero when the delta is missing or has fewer than three fields. -/
def deltaSecs (x : JVal) : Int :=
  match x with
  | .obj kvs =>
    match lookupKey kvs "delta" with
    | some (.str s) =>
      match parseAllInts (splitCols s.data) with
      | some (h :: m :: sec :: _) => h * 3600 + m * 60 + sec
      | _ => 0
    | _ => 0
  | _ => 0

/-- Entries on which the `total` loop cannot raise an uncaught
exception: dict entries whose delta, when present, is a string of
colon-separated integers. -/
def deltaOk (x : JVal) : Bool :=
  match x with
  | .obj kvs =>
    match lookupKey kvs "delta" with
    | none => true
    | some (.str s) => (parseAllInts (splitCols s.data)).isSome
    | some _ => false
  | _ => false

/-! ## Format checkers (for the encoding-format claims) -/

/-- Does a string have the `H:MM:SS` shape: one or more digits, `:`,
two digits, `:`, two digits, nothing else (no fractional part)? -/
def isHMMSS (s : String) : Bool :=
  match s.data.drop (s.data.takeWhile isDigitC).length with
  | ':' :: a :: b :: ':' :: c :: d :: [] =>
    !(s.data.takeWhile isDigitC).isEmpty && isDigitC a && isDigitC b &&
    isDigitC c && isDigitC d
  | _ => false

/-- Does a string have the ISO-8601 datetime shape
`YYYY-MM-DDTHH:MM:SS[.f+]`? -/
def isIsoTimestamp (s : String) : Bool :=
  match s.data with
  | y1 :: y2 :: y3 :: y4 :: '-' :: m1 :: m2 :: '-' :: d1 :: d2 :: 'T' ::
    h1 :: h2 :: ':' :: n1 :: n2 :: ':' :: s1 :: s2 :: rest =>
    [y1, y2, y3, y4, m1, m2, d1, d2, h1, h2, n1, n2, s1, s2].all isDigitC &&
    (match rest with
     | [] => true
     | '.' :: fs => !fs.isEmpty && fs.all isDigitC
     | _ => false)
  | _ => false

/-! ## Digit lemmas -/

theorem digitVal_digitChar : ∀ n, n < 10 → digitVal (digitChar n) = some n := by
  decide

theorem isDigitC_digitChar : ∀ n, n < 10 → isDigitC (digitChar n) = true := by
  decide

theorem expectChar_cons (c : Char) (rest : List Char) :
    expectChar c (c :: rest) = some rest := by
  simp [expectChar]

theorem read4_pad4 (y : Nat) (hy : y ≤ 9999) (rest : List Char) :
    read4 (pad4 y ++ rest) = some (y, rest) := by
  have h1 : y / 1000 < 10 := by omega
  have h2 : y / 100 % 10 < 10 := by omega
  have h3 : y / 10 % 10 < 10 := by omega
  have h4 : y % 10 < 10 := by omega
  have hv : 1000 * (y / 1000) + 100 * (y / 100 % 10) + 10 * (y / 10 % 10)
      + y % 10 = y := by omega
  simp only [pad4, List.cons_append, List.nil_append, read4,
    digitVal_digitChar _ h1, digitVal_digitChar _ h2,
    digitVal_digitChar _ h3, digitVal_digitChar _ h4]
  rw [hv]

theorem readNum2_pad2 (check : Nat → Bool) (n : Nat) (hn : n ≤ 99)
    (hc : check n = true) (rest : List Char) :
    readNum2 check (pad2 n ++ rest) = some (n, rest) := by
  have h1 : n / 10 < 10 := by omega
  have h2 : n % 10 < 10 := by omega
  have hv : 10 * (n / 10) + n % 10 = n := by omega
  simp only [pad2, List.cons_append, List.nil_append, readNum2,
    digitVal_digitChar _ h1, digitVal_digitChar _ h2]
  rw [hv]
  simp [hc]

theorem readFrac_pad6 (m : Nat) (hm : m ≤ 999999) :
    readFrac (pad6 m) = some m := by
  have h1 : m / 100000 < 10 := by omega
  have h2 : m / 10000 % 10 < 10 := by omega
  have h3 : m / 1000 % 10 < 10 := by omega
  have h4 : m / 100 % 10 < 10 := by omega
  have h5 : m / 10 % 10 < 10 := by omega
  have h6 : m % 10 < 10 := by omega
  simp only [readFrac, pad6, List.takeWhile,
    isDigitC_digitChar _ h1, isDigitC_digitChar _ h2,
    isDigitC_digitChar _ h3, isDigitC_digitChar _ h4,
    isDigitC_digitChar _ h5, isDigitC_digitChar _ h6]
  simp only [digitsVal, List.foldl,
    digitVal_digitChar _ h1, digitVal_digitChar _ h2,
    digitVal_digitChar _ h3, digitVal_digitChar _ h4,
    digitVal_digitChar _ h5, digitVal_digitChar _ h6]
  norm_num
  omega

theorem daysInMonth_le (y m : Nat) : daysInMonth y m ≤ 31 := by
  unfold daysInMonth
  split
  · split <;> omega
  · split <;> omega

/-- The strptime format reproduces every valid datetime whose
microsecond field is nonzero from its `isoformat()` rendering. -/
theorem parseIso_isoformat (t : DT) (hv : t.Valid) (hm : t.micro ≠ 0) :
    parseIso (isoformat t) = some t := by
  obtain ⟨ha, hb, hc, hd, he, hf, hg, hh, hi, hj⟩ := hv
  have hmo : (1 ≤ t.month && t.month ≤ 12) = true := by
    simp only [Bool.and_eq_true, decide_eq_true_eq]; omega
  have hda : (1 ≤ t.day && t.day ≤ 31) = true := by
    have := daysInMonth_le t.year t.month
    simp only [Bool.and_eq_true, decide_eq_true_eq]; omega
  have hho : (decide (t.hour ≤ 23)) = true := by
    simp only [decide_eq_true_eq]; omega
  have hmi : (decide (t.minute ≤ 59)) = true := by
    simp only [decide_eq_true_eq]; omega
  have hse : (decide (t.second ≤ 61)) = true := by
    simp only [decide_eq_true_eq]; omega
  have hy0 : ¬ t.year = 0 := by omega
  have hd31 : t.day ≤ 31 := le_trans hf (daysInMonth_le t.year t.month)
  have hguard : t.day ≤ daysInMonth t.year t.month ∧ t.second ≤ 59 := ⟨hf, hi⟩
  have hstart : parseIso (isoformat t) = parseIsoChars (isoChars t) := rfl
  rw [hstart]
  rw [show isoChars t = pad4 t.year ++ '-' :: pad2 t.month ++ '-' :: pad2 t.day
      ++ 'T' :: pad2 t.hour ++ ':' :: pad2 t.minute ++ ':' :: pad2 t.second
      ++ ('.' :: pad6 t.micro) from by rw [isoChars, if_neg hm]]
  have bs : ∀ {α β : Type} (a : α) (f : α → Option β),
      Option.bind (some a) f = f a := fun _ _ => rfl
  rw [parseIsoChars]
  simp only [List.append_assoc, List.cons_append]
  rw [read4_pad4 t.year hb, bs]
  rw [if_neg hy0]
  rw [expectChar_cons, bs]
  rw [readNum2_pad2 (fun v => decide (1 ≤ v) && decide (v ≤ 12)) t.month
      (by omega) hmo, bs]
  rw [expectChar_cons, bs]
  rw [readNum2_pad2 (fun v => decide (1 ≤ v) && decide (v ≤ 31)) t.day
      (by omega) hda, bs]
  rw [expectChar_cons, bs]
  rw [readNum2_pad2 (fun v => decide (v ≤ 23)) t.hour (by omega) hho, bs]
  rw [expectChar_cons, bs]
  rw [readNum2_pad2 (fun v => decide (v ≤ 59)) t.minute (by omega) hmi, bs]
  rw [expectChar_cons, bs]
  rw [readNum2_pad2 (fun v => decide (v ≤ 61)) t.second (by omega) hse, bs]
  rw [expectChar_cons, bs]
  rw [readFrac_pad6 t.micro (by omega), bs]
  rw [if_pos hguard]

/-! ## The truncation `str(td).split('.')[0]` keeps exactly the
whole-second part -/

theorem digitChar_ne_dot (n : Nat) : digitChar n ≠ '.' := by
  unfold digitChar; split <;> decide

theorem natDecAux_no_dot :
    ∀ (fuel n : Nat), (natDecAux fuel n).all (fun c => decide (c ≠ '.')) = true
  | 0, _ => rfl
  | fuel + 1, n => by
    rw [natDecAux]
    split
    · simp [digitChar_ne_dot]
    · simp only [List.all_append]
      rw [natDecAux_no_dot fuel (n / 10)]
      simp [digitChar_ne_dot]

theorem natDec_no_dot (n : Nat) :
    (natDec n).all (fun c => decide (c ≠ '.')) = true :=
  natDecAux_no_dot (n + 1) n

theorem intDec_no_dot (n : Int) : (intDec n).all (fun c => decide (c ≠ '.')) = true := by
  unfold intDec
  split
  · simp only [List.all_cons, natDec_no_dot, Bool.and_true]
    decide
  · exact natDec_no_dot _

theorem pad2_no_dot (n : Nat) : (pad2 n).all (fun c => decide (c ≠ '.')) = true := by
  simp only [pad2, List.all_cons, List.all_nil, Bool.and_true,
    decide_eq_true (digitChar_ne_dot (n / 10)),
    decide_eq_true (digitChar_ne_dot (n % 10)), Bool.true_and]

theorem tdBase_no_dot (days : Int) (secs : Nat) :
    (tdBase days secs).all (fun c => decide (c ≠ '.')) = true := by
  have hb : (natDec (secs / 3600) ++ ':' :: pad2 (secs / 60 % 60)
      ++ ':' :: pad2 (secs % 60)).all (fun c => decide (c ≠ '.')) = true := by
    simp only [List.all_append, List.all_cons, natDec_no_dot, pad2_no_dot,
      Bool.and_true, Bool.true_and]
    decide
  unfold tdBase
  split
  · exact hb
  · simp only [List.all_append, intDec_no_dot, hb, Bool.and_true, Bool.true_and]
    split <;> decide

theorem all_ne_dot_mem {l : List Char}
    (h : l.all (fun c => decide (c ≠ '.')) = true) : ∀ c ∈ l, c ≠ '.' :=
  fun c hc => of_decide_eq_true (List.all_eq_true.mp h c hc)

theorem takeWhile_ne_dot_all :
    ∀ l : List Char, (∀ c ∈ l, c ≠ '.') →
      l.takeWhile (fun c => decide (c ≠ '.')) = l
  | [], _ => rfl
  | a :: l, h => by
    have hpa : decide (a ≠ '.') = true :=
      decide_eq_true (h a (List.mem_cons_self a l))
    simp only [List.takeWhile_cons, hpa, if_true]
    rw [takeWhile_ne_dot_all l (fun c hc => h c (List.mem_cons_of_mem a hc))]

theorem takeWhile_ne_dot_append :
    ∀ (l r : List Char), (∀ c ∈ l, c ≠ '.') →
      (l ++ '.' :: r).takeWhile (fun c => decide (c ≠ '.')) = l
  | [], r, _ => by simp [List.takeWhile_cons]
  | a :: l, r, h => by
    have hpa : decide (a ≠ '.') = true :=
      decide_eq_true (h a (List.mem_cons_self a l))
    simp only [List.cons_append, List.takeWhile_cons, hpa, if_true]
    rw [takeWhile_ne_dot_append l r (fun c hc => h c (List.mem_cons_of_mem a hc))]

/-- Dropping the fractional part of `str(timedelta)` yields exactly the
rendering of the timedelta truncated (floor) to whole seconds. -/
theorem encDelta_eq_floor (us : Int) : encDelta us = strTDs (wholeSecUs us) := by
  have hq : Int.fdiv (Int.fdiv us 1000000 * 1000000) 1000000
      = Int.fdiv us 1000000 := Int.mul_fdiv_cancel _ (by norm_num)
  unfold encDelta strTDs strTD wholeSecUs
  simp only [hq, sub_self, Int.toNat_zero, if_pos rfl, ite_true, if_true,
    List.append_nil]
  split
  · rw [List.append_nil]
    exact congrArg String.mk
      (takeWhile_ne_dot_all _ (all_ne_dot_mem (tdBase_no_dot _ _)))
  · exact congrArg String.mk
      (takeWhile_ne_dot_append _ _ (all_ne_dot_mem (tdBase_no_dot _ _)))

/-! ## Decode ∘ Encode -/

theorem isoformat_not_empty (t : DT) : (isoformat t).data.isEmpty = false := by
  simp [isoformat, isoChars, pad4]

theorem stamp_roundtrip (st : Stamp) (h : stampOkB st = true) :
    applyHook (encodeJ (stampToJ st)) = stampToJ st := by
  unfold stampOkB at h
  rw [Bool.and_eq_true] at h
  have hv : st.time.Valid := of_decide_eq_true h.1
  have hm : st.time.micro ≠ 0 := of_decide_eq_true h.2
  rcases hmsg : st.message with _ | msg <;>
    simp [stampToJ, hmsg, encodeJ, encodeJKVs, applyHook, applyHookKVs,
      datetime_hook, lookupKey, truthy, isoformat_not_empty,
      parseIso_isoformat st.time hv hm, setKey]

theorem datetime_hook_no_time (kvs : List (String × JVal))
    (h : lookupKey kvs "time" = none) : datetime_hook kvs = kvs := by
  simp [datetime_hook, h]

theorem entry_roundtrip (e : TEntry) (h : entryOkB e = true) :
    applyHook (encodeJ (entryToJ e)) = entryImage e := by
  unfold entryOkB at h
  rw [Bool.and_eq_true] at h
  have hstart := stamp_roundtrip e.start h.1
  rcases hstop : e.stop with _ | st <;> rcases hdelta : e.delta with _ | d <;>
    simp only [entryToJ, entryImage, hstop, hdelta, List.append_nil,
      List.cons_append, List.nil_append]
  · rw [show applyHook (encodeJ (JVal.obj [("start", stampToJ e.start)]))
        = JVal.obj (datetime_hook
            [("start", applyHook (encodeJ (stampToJ e.start)))]) from rfl]
    rw [hstart]
    exact congrArg JVal.obj (datetime_hook_no_time _ rfl)
  · rw [show applyHook (encodeJ (JVal.obj
          [("start", stampToJ e.start), ("delta", JVal.td d)]))
        = JVal.obj (datetime_hook
            [("start", applyHook (encodeJ (stampToJ e.start))),
             ("delta", JVal.str (encDelta d))]) from rfl]
    rw [hstart, encDelta_eq_floor]
    exact congrArg JVal.obj (datetime_hook_no_time _ rfl)
  · have hst := stamp_roundtrip st (by rw [hstop] at h; exact h.2)
    rw [show applyHook (encodeJ (JVal.obj
          [("start", stampToJ e.start), ("stop", stampToJ st)]))
        = JVal.obj (datetime_hook
            [("start", applyHook (encodeJ (stampToJ e.start))),
             ("stop", applyHook (encodeJ (stampToJ st)))]) from rfl]
    rw [hstart, hst]
    exact congrArg JVal.obj (datetime_hook_no_time _ rfl)
  · have hst := stamp_roundtrip st (by rw [hstop] at h; exact h.2)
    rw [show applyHook (encodeJ (JVal.obj
          [("start", stampToJ e.start), ("stop", stampToJ st),
           ("delta", JVal.td d)]))
        = JVal.obj (datetime_hook
            [("start", applyHook (encodeJ (stampToJ e.start))),
             ("stop", applyHook (encodeJ (stampToJ st))),
             ("delta", JVal.str (encDelta d))]) from rfl]
    rw [hstart, hst, encDelta_eq_floor]
    exact congrArg JVal.obj (datetime_hook_no_time _ rfl)

theorem logList_roundtrip :
    ∀ L : List TEntry, (∀ e ∈ L, entryOkB e = true) →
      applyHookList (encodeJList (L.map entryToJ)) = L.map entryImage
  | [], _ => rfl
  | e :: L, h => by
    simp only [List.map_cons, encodeJList, applyHookList]
    rw [entry_roundtrip e (h e (List.mem_cons_self e L)),
      logList_roundtrip L (fun x hx => h x (List.mem_cons_of_mem e hx))]

/-- C4 (amended): for every log all of whose start/stop timestamps are
valid datetimes with a nonzero microsecond field, `Decode(Encode(L))`
reconstructs the entries exactly: every start/stop timestamp and message
round-trips, and every delta round-trips to whole-second (floor)
precision, re-read as the `H:MM:SS`-style string of its truncation. -/
theorem c4_decode_encode_roundtrip (L : List TEntry)
    (h : ∀ e ∈ L, entryOkB e = true) :
    applyHook (encodeJ (logJ L)) = decodeImage L := by
  rw [show applyHook (encodeJ (logJ L)) = JVal.obj (datetime_hook
      [("times", JVal.arr (applyHookList (encodeJList (L.map entryToJ))))])
      from rfl]
  rw [logList_roundtrip L h]
  exact congrArg JVal.obj (datetime_hook_no_time _ rfl)

theorem c4_roundtrip_witness :
    (∀ e ∈ [(⟨⟨⟨2021, 6, 15, 12, 30, 45, 123456⟩, some "work"⟩,
        some ⟨⟨2021, 6, 15, 13, 0, 0, 1⟩, none⟩, some 1765000123⟩ : TEntry)],
      entryOkB e = true)
    ∧ applyHook (encodeJ (logJ
        [⟨⟨⟨2021, 6, 15, 12, 30, 45, 123456⟩, some "work"⟩,
          some ⟨⟨2021, 6, 15, 13, 0, 0, 1⟩, none⟩, some 1765000123⟩]))
      = decodeImage
        [⟨⟨⟨2021, 6, 15, 12, 30, 45, 123456⟩, some "work"⟩,
          some ⟨⟨2021, 6, 15, 13, 0, 0, 1⟩, none⟩, some 1765000123⟩] :=
  ⟨by decide, c4_decode_encode_roundtrip _ (by decide)⟩

/-- C4 counterexample to the unrestricted claim: a log whose single
timestamp has microsecond 0 is encoded without the `.ffffff` part, so
the decoding hook's strptime (`'%Y-%m-%dT%H:%M:%S.%f'`) fails and the
start timestamp comes back as a plain string, not a datetime: the entry
does not round-trip. -/
theorem c4_counterexample :
    applyHook (encodeJ (logJ [⟨⟨⟨2020, 1, 1, 0, 0, 0, 0⟩, none⟩, none, none⟩]))
      = JVal.obj [("times", JVal.arr [JVal.obj [("start", JVal.obj
          [("time", JVal.str "2020-01-01T00:00:00"),
           ("message", JVal.null)])]])]
    ∧ decodeImage [⟨⟨⟨2020, 1, 1, 0, 0, 0, 0⟩, none⟩, none, none⟩]
      = JVal.obj [("times", JVal.arr [JVal.obj [("start", JVal.obj
          [("time", JVal.dt ⟨2020, 1, 1, 0, 0, 0, 0⟩),
           ("message", JVal.null)])]])]
    ∧ JVal.str "2020-01-01T00:00:00" ≠ JVal.dt ⟨2020, 1, 1, 0, 0, 0, 0⟩ :=
  ⟨rfl, rfl, fun h => nomatch h⟩

/-! ## Encoding formats (C9) -/

theorem isDigitC_digitChar_any (n : Nat) : isDigitC (digitChar n) = true := by
  unfold digitChar; split <;> decide

theorem natDecAux_all_digits :
    ∀ (fuel n : Nat), (natDecAux fuel n).all isDigitC = true
  | 0, _ => rfl
  | fuel + 1, n => by
    rw [natDecAux]
    split
    · simp [isDigitC_digitChar_any]
    · simp only [List.all_append]
      rw [natDecAux_all_digits fuel (n / 10)]
      simp [isDigitC_digitChar_any]

theorem natDec_all_digits (n : Nat) : (natDec n).all isDigitC = true :=
  natDecAux_all_digits (n + 1) n

theorem natDec_ne_nil (n : Nat) : natDec n ≠ [] := by
  unfold natDec natDecAux
  split <;> simp

theorem natDec_isEmpty (n : Nat) : (natDec n).isEmpty = false := by
  have h := natDec_ne_nil n
  cases hl : natDec n with
  | nil => exact absurd hl h
  | cons a t => rfl

theorem takeWhile_stop_append (p : Char → Bool) :
    ∀ (l : List Char) (x : Char) (r : List Char),
      (∀ c ∈ l, p c = true) → p x = false →
      (l ++ x :: r).takeWhile p = l
  | [], x, r, _, hx => by simp [List.takeWhile_cons, hx]
  | a :: l, x, r, h, hx => by
    have hpa := h a (List.mem_cons_self a l)
    simp only [List.cons_append, List.takeWhile_cons, hpa, if_true]
    rw [takeWhile_stop_append p l x r
      (fun c hc => h c (List.mem_cons_of_mem a hc)) hx]

theorem isHMMSS_base (hh mm ss : Nat) :
    isHMMSS ⟨natDec hh ++ ':' :: pad2 mm ++ ':' :: pad2 ss⟩ = true := by
  have hmem : ∀ c ∈ natDec hh, isDigitC c = true :=
    List.all_eq_true.mp (natDec_all_digits hh)
  have h1 : List.takeWhile isDigitC (natDec hh ++ ':' :: digitChar (mm / 10)
      :: digitChar (mm % 10) :: ':' :: digitChar (ss / 10)
      :: digitChar (ss % 10) :: []) = natDec hh :=
    takeWhile_stop_append isDigitC _ ':' _ hmem (by decide)
  have h2 : List.drop (natDec hh).length (natDec hh ++ ':'
      :: digitChar (mm / 10) :: digitChar (mm % 10) :: ':'
      :: digitChar (ss / 10) :: digitChar (ss % 10) :: [])
      = ':' :: digitChar (mm / 10) :: digitChar (mm % 10) :: ':'
        :: digitChar (ss / 10) :: digitChar (ss % 10) :: [] :=
    List.drop_left _ _
  unfold isHMMSS
  rw [show (natDec hh ++ ':' :: pad2 mm ++ ':' :: pad2 ss : List Char)
      = natDec hh ++ ':' :: digitChar (mm / 10) :: digitChar (mm % 10)
        :: ':' :: digitChar (ss / 10) :: digitChar (ss % 10) :: [] from by
        simp [pad2]]
  rw [h1, h2]
  simp [natDec_isEmpty, isDigitC_digitChar_any]

theorem encDelta_day_lt (us : Int) (h0 : 0 ≤ us) (h1 : us < 86400000000) :
    encDelta us = ⟨natDec (us.toNat / 1000000 / 3600) ++ ':' ::
      pad2 (us.toNat / 1000000 / 60 % 60) ++ ':' ::
      pad2 (us.toNat / 1000000 % 60)⟩ := by
  rw [encDelta_eq_floor]
  have hm1 := Int.fmod_add_fdiv us 1000000
  have hm2 : 0 ≤ Int.fmod us 1000000 := Int.fmod_nonneg h0 (by norm_num)
  have hm3 : Int.fmod us 1000000 < 1000000 := Int.fmod_lt_of_pos us (by norm_num)
  have hf0 : 0 ≤ Int.fdiv us 1000000 := Int.fdiv_nonneg h0 (by norm_num)
  have hq : Int.fdiv (Int.fdiv us 1000000 * 1000000) 1000000
      = Int.fdiv us 1000000 := Int.mul_fdiv_cancel _ (by norm_num)
  have hd1 := Int.fmod_add_fdiv (Int.fdiv us 1000000) 86400
  have hd2 : 0 ≤ Int.fmod (Int.fdiv us 1000000) 86400 :=
    Int.fmod_nonneg hf0 (by norm_num)
  have hd3 : Int.fmod (Int.fdiv us 1000000) 86400 < 86400 :=
    Int.fmod_lt_of_pos _ (by norm_num)
  have hdays : Int.fdiv (Int.fdiv us 1000000) 86400 = 0 := by omega
  have hfn : (Int.fdiv us 1000000).toNat = us.toNat / 1000000 := by omega
  unfold strTDs strTD wholeSecUs
  simp only [hq, hdays, sub_self, Int.toNat_zero, zero_mul, sub_zero,
    if_pos rfl, ite_true, List.append_nil, hfn]
  unfold tdBase
  simp only [if_pos rfl, ite_true]

/-- C9 (amended): encoding renders every timestamp as ISO-8601
(`YYYY-MM-DDTHH:MM:SS[.ffffff]`), and every nonnegative duration shorter
than one day as `H:MM:SS` with the seconds truncated and no fractional
part; durations of a day or more gain a `D day(s), ` prefix instead
(see the counterexample). -/
theorem c9_encoding_formats :
    (∀ t : DT, isIsoTimestamp (isoformat t) = true)
    ∧ (∀ us : Int, 0 ≤ us → us < 86400000000 →
        encDelta us = ⟨natDec (us.toNat / 1000000 / 3600) ++ ':' ::
          pad2 (us.toNat / 1000000 / 60 % 60) ++ ':' ::
          pad2 (us.toNat / 1000000 % 60)⟩
        ∧ isHMMSS (encDelta us) = true) := by
  constructor
  · intro t
    unfold isoformat isoChars isIsoTimestamp pad4 pad2
    by_cases hm : t.micro = 0 <;>
      simp [hm, pad6, isDigitC_digitChar_any]
  · intro us h0 h1
    refine ⟨encDelta_day_lt us h0 h1, ?_⟩
    rw [encDelta_day_lt us h0 h1]
    exact isHMMSS_base _ _ _

theorem c9_formats_witness :
    isIsoTimestamp (isoformat ⟨2021, 6, 15, 13, 0, 0, 1⟩) = true
    ∧ (0 : Int) ≤ 5400000000 ∧ (5400000000 : Int) < 86400000000
    ∧ isHMMSS (encDelta 5400000000) = true :=
  ⟨c9_encoding_formats.1 _, by decide, by decide,
    (c9_encoding_formats.2 5400000000 (by decide) (by decide)).2⟩

/-- C9 counterexample: a duration of exactly one day is rendered as
`"1 day, 0:00:00"`, which is not of the `H:MM:SS` shape the claim
asserts for every duration. -/
theorem c9_counterexample :
    encDelta 86400000000 = "1 day, 0:00:00"
    ∧ isHMMSS (encDelta 86400000000) = false := ⟨rfl, rfl⟩

/-! ## C10: the decoding hook is total -/

/-- C10: `datetime_hook` never propagates an exception: when the
`'time'` value is absent, falsy, an unparseable string, or not a string
at all, the dict is returned with the value unchanged — the `return` in
the `finally` block discards the exception. -/
theorem c10_hook_total (kvs : List (String × JVal))
    (h : lookupKey kvs "time" = none
      ∨ (∃ v, lookupKey kvs "time" = some v ∧ truthy v = false)
      ∨ (∃ s, lookupKey kvs "time" = some (.str s) ∧ parseIso s = none)
      ∨ (∃ v, lookupKey kvs "time" = some v ∧ ∀ s, v ≠ .str s)) :
    datetime_hook kvs = kvs := by
  unfold datetime_hook
  rcases h with h | ⟨v, hv, ht⟩ | ⟨s, hv, hp⟩ | ⟨v, hv, hs⟩
  · simp [h]
  · simp [hv, ht]
  · by_cases htr : truthy (.str s) <;> simp [hv, htr, hp]
  · cases v
    case str s2 => exact absurd rfl (hs s2)
    all_goals simp [hv]

theorem c10_hook_witness :
    lookupKey [("time", JVal.str "bogus")] "time" = some (.str "bogus")
    ∧ parseIso "bogus" = none
    ∧ datetime_hook [("time", JVal.str "bogus")]
      = [("time", JVal.str "bogus")] :=
  ⟨rfl, rfl, c10_hook_total _ (Or.inr (Or.inr (Or.inl ⟨"bogus", rfl, rfl⟩)))⟩

/-! ## C8: tolerant decode -/

/-- C8 (amended): a payload that is empty or fails JSON parsing decodes
to the empty log `{times: []}`; a payload that parses as a JSON object
is taken as-is (hook applied) — which need not be an empty log. -/
theorem c8_decode_tolerant :
    initTimer .notJson = some emptyLog
    ∧ ∀ kvs, initTimer (.jsonOf (.obj kvs)) = some (applyHook (.obj kvs)) :=
  ⟨rfl, fun _ => rfl⟩

/-- C8 counterexample: the payload `"{}"` is valid JSON but not the
interchange format; decode yields the empty dict — a log with no
`times` sequence at all — not the empty log `{times: []}`. -/
theorem c8_counterexample :
    initTimer (.jsonOf (.obj [])) = some (.obj [])
    ∧ lookupKey [] "times" = none
    ∧ JVal.obj [] ≠ emptyLog :=
  ⟨rfl, rfl, fun h => by simp [emptyLog] at h⟩

/-! ## C1: Start has no AlreadyRunning guard -/

/-- C1 (code evaluated at the failing input): on a log whose last (and
only) entry is running, `Timer.start` succeeds and appends a second
running entry instead of failing with `AlreadyRunning` and leaving the
log unmodified — contradicting the spec and the method's own docstring
"Start a new timer, if none active". -/
theorem c1_start_no_guard :
    isRunningLast
      (JVal.obj [("times", JVal.arr [JVal.obj [("start", JVal.obj [("time", JVal.dt ⟨2020, 1, 1, 10, 0, 0, 1⟩), ("message", JVal.null)])]])]) = true
    ∧ timerStartJ
      (JVal.obj [("times", JVal.arr [JVal.obj [("start", JVal.obj [("time", JVal.dt ⟨2020, 1, 1, 10, 0, 0, 1⟩), ("message", JVal.null)])]])])
      ⟨2020, 1, 1, 11, 0, 0, 1⟩ none
      = some (JVal.obj [("times", JVal.arr [JVal.obj [("start", JVal.obj [("time", JVal.dt ⟨2020, 1, 1, 10, 0, 0, 1⟩), ("message", JVal.null)])], JVal.obj [("start", JVal.obj [("time", JVal.dt ⟨2020, 1, 1, 11, 0, 0, 1⟩), ("message", JVal.null)])]])]) :=
  ⟨rfl, rfl⟩

/-! ## C2: the stash is unconditional -/

/-- C2 counterexample: with the original branch equal to the configured
tracking branch (`needsSwitch` false), the workflow still pushes a
stash: `main` calls `repo.git.stash()` unconditionally, without
comparing branch names. -/
theorem c2_counterexample :
    (Env.mk true true true "hammertime" true true true true
      Payload.notJson true true true).origBranch
      = (Config.mk "hammertime" none).branch
    ∧ Act.stashSave ∈ (runMain
        (Env.mk true true true "hammertime" true true true true
          Payload.notJson true true true)
        (Config.mk "hammertime" none) Cmd.show ⟨2020, 1, 1, 0, 0, 0, 1⟩).trace :=
  ⟨rfl, by decide⟩

/-- C2 (amended): on every invocation that passes the validity checks
(repository valid, known command, at least one head), the working tree
is stashed — regardless of whether the original branch equals the
configured tracking branch. -/
theorem c2_always_stash (env : Env) (cfg : Config) (cmd : Cmd) (now : DT)
    (h1 : env.repoValid = true) (h2 : env.cmdKnown = true)
    (h3 : env.headsNonempty = true) :
    Act.stashSave ∈ (runMain env cfg cmd now).trace := by
  unfold runMain runBody
  simp only [h1, h2, h3, not_true, Bool.not_true]
  repeat' split
  all_goals simp_all

theorem c2_always_stash_witness :
    Act.stashSave ∈ (runMain
      (Env.mk true true true "main" true false true true
        Payload.notJson true true true)
      (Config.mk "hammertime" none) Cmd.total ⟨2020, 1, 2, 3, 4, 5, 6⟩).trace :=
  c2_always_stash _ _ _ _ rfl rfl rfl

/-! ## C3: total -/

theorem totalGo_sum :
    ∀ (xs : List JVal) (acc : Int), (∀ x ∈ xs, deltaOk x = true) →
      totalGo xs acc = some (acc + xs.foldr (fun x a => deltaSecs x + a) 0)
  | [], acc, _ => by simp [totalGo]
  | x :: xs, acc, h => by
    have hx := h x (List.mem_cons_self x xs)
    have hrest : ∀ y ∈ xs, deltaOk y = true :=
      fun y hy => h y (List.mem_cons_of_mem x hy)
    have ih := totalGo_sum xs
    cases x with
    | obj kvs =>
      simp only [deltaOk] at hx
      cases hd : lookupKey kvs "delta" with
      | none =>
        have hds : deltaSecs (.obj kvs) = 0 := by simp [deltaSecs, hd]
        simp only [totalGo, hd, List.foldr_cons, hds]
        rw [ih acc hrest]
        simp
      | some v =>
        rw [hd] at hx
        cases v with
        | str s =>
          simp only at hx
          cases hints : parseAllInts (splitCols s.data) with
          | none => rw [hints] at hx; simp at hx
          | some ints =>
            match ints with
            | [] =>
              have hds : deltaSecs (.obj kvs) = 0 := by
                simp [deltaSecs, hd, hints]
              simp only [totalGo, hd, hints, List.foldr_cons, hds]
              rw [ih acc hrest]
              simp
            | [a] =>
              have hds : deltaSecs (.obj kvs) = 0 := by
                simp [deltaSecs, hd, hints]
              simp only [totalGo, hd, hints, List.foldr_cons, hds]
              rw [ih acc hrest]
              simp
            | [a, b] =>
              have hds : deltaSecs (.obj kvs) = 0 := by
                simp [deltaSecs, hd, hints]
              simp only [totalGo, hd, hints, List.foldr_cons, hds]
              rw [ih acc hrest]
              simp
            | a :: b :: c :: rest =>
              have hds : deltaSecs (.obj kvs) = a * 3600 + b * 60 + c := by
                simp [deltaSecs, hd, hints]
              simp only [totalGo, hd, hints, List.foldr_cons, hds]
              rw [ih (acc + (a * 3600 + b * 60 + c)) hrest]
              simp only [Option.some.injEq]
              ring
        | null => simp at hx
        | bool b => simp at hx
        | num n => simp at hx
        | arr ys => simp at hx
        | obj kvs2 => simp at hx
        | dt d => simp at hx
        | td u => simp at hx
    | null => simp [deltaOk] at hx
    | bool b => simp [deltaOk] at hx
    | num n => simp [deltaOk] at hx
    | str s => simp [deltaOk] at hx
    | arr ys => simp [deltaOk] at hx
    | dt d => simp [deltaOk] at hx
    | td u => simp [deltaOk] at hx

/-- C3 (amended): `total` returns the sum `h*3600 + m*60 + s` over the
first three colon-separated integer fields of each entry's delta,
counting zero for entries with a missing delta or with fewer than three
fields — provided every present delta is a string of colon-separated
integers; a delta like `"oops"` instead raises an uncaught ValueError
(see the counterexample), so "never fails" does not hold. -/
theorem c3_total_sum (tkvs : List (String × JVal)) (xs : List JVal)
    (h1 : lookupKey tkvs "times" = some (.arr xs))
    (h2 : ∀ x ∈ xs, deltaOk x = true) :
    totalJ (.obj tkvs) = some (xs.foldr (fun x a => deltaSecs x + a) 0) := by
  simp only [totalJ, h1]
  rw [totalGo_sum xs 0 h2]
  simp

theorem c3_total_witness :
    totalJ (JVal.obj [("times", JVal.arr
      [JVal.obj [("delta", JVal.str "1:00:00")],
       JVal.obj [("delta", JVal.str "0:30:00")],
       JVal.obj []])]) = some 5400 := by
  rw [c3_total_sum [("times", JVal.arr
      [JVal.obj [("delta", JVal.str "1:00:00")],
       JVal.obj [("delta", JVal.str "0:30:00")],
       JVal.obj []])]
      [JVal.obj [("delta", JVal.str "1:00:00")],
       JVal.obj [("delta", JVal.str "0:30:00")],
       JVal.obj []] rfl (by decide)]
  rfl

/-- C3 counterexample: an entry whose delta is present but not a string
of colon-separated integers makes `total` raise an uncaught ValueError
(`int("oops")`), rather than contributing zero: `total` can fail. -/
theorem c3_counterexample :
    totalJ (JVal.obj [("times", JVal.arr
      [JVal.obj [("delta", JVal.str "oops")]])]) = none := rfl

/-! ## C5: Stop -/

theorem lookupKey_setKey_ne :
    ∀ (kvs : List (String × JVal)) (k k2 : String) (v : JVal), k ≠ k2 →
      lookupKey (setKey kvs k v) k2 = lookupKey kvs k2
  | [], k, k2, v, h => by
    simp only [setKey, lookupKey]
    rw [if_neg h]
  | (k1, v1) :: rest, k, k2, v, h => by
    simp only [setKey]
    by_cases h1 : k1 = k
    · subst h1
      simp only [if_pos rfl, lookupKey]
      rw [if_neg h, if_neg h]
    · rw [if_neg h1]
      simp only [lookupKey]
      by_cases h2 : k1 = k2
      · rw [if_pos h2, if_pos h2]
      · rw [if_neg h2, if_neg h2, lookupKey_setKey_ne rest k k2 v h]

/-- C5: stopping an empty log fails (NoEntries, the IndexError raised
by `self['times'][-1]`) with the log unmodified; on a non-empty log
whose last entry has a datetime start time, `Timer.stop` sets
`stop = {now, message}` on the last entry and computes
`delta = now - start.time`. -/
theorem c5_stop_behavior :
    (∀ (tkvs : List (String × JVal)) (now : DT) (msg : Option String),
      lookupKey tkvs "times" = some (.arr []) →
      timerStopJ (.obj tkvs) now msg = none)
    ∧ (∀ (tkvs : List (String × JVal)) (xs : List JVal)
        (kvs skvs : List (String × JVal)) (d : DT) (now : DT)
        (msg : Option String),
        lookupKey tkvs "times" = some (.arr xs) →
        xs.getLast? = some (.obj kvs) →
        lookupKey kvs "start" = some (.obj skvs) →
        lookupKey skvs "time" = some (.dt d) →
        timerStopJ (.obj tkvs) now msg
          = some (.obj (setKey tkvs "times" (.arr (xs.dropLast ++
              [.obj (setKey (setKey kvs "stop" (stampJ now msg)) "delta"
                (.td (dtSub now d)))]))))) := by
  constructor
  · intro tkvs now msg h
    simp [timerStopJ, h]
  · intro tkvs xs kvs skvs d now msg h1 h2 h3 h4
    have hcomm : lookupKey (setKey kvs "stop" (stampJ now msg)) "start"
        = lookupKey kvs "start" :=
      lookupKey_setKey_ne kvs "stop" "start" _ (by decide)
    simp only [timerStopJ, h1, h2, hcomm, h3, h4, truthy, if_true]

theorem c5_stop_witness :
    timerStopJ (JVal.obj [("times", JVal.arr [])]) ⟨2020, 1, 1, 1, 0, 0, 1⟩
      none = none
    ∧ timerStopJ
        (JVal.obj [("times", JVal.arr [JVal.obj [("start", JVal.obj
          [("time", JVal.dt ⟨2020, 1, 1, 10, 0, 0, 0⟩),
           ("message", JVal.null)])]])])
        ⟨2020, 1, 1, 11, 30, 15, 0⟩ (some "done")
      = some (JVal.obj (setKey [("times", JVal.arr [JVal.obj [("start",
          JVal.obj [("time", JVal.dt ⟨2020, 1, 1, 10, 0, 0, 0⟩),
                    ("message", JVal.null)])]])] "times"
          (JVal.arr ((List.dropLast [JVal.obj [("start", JVal.obj
            [("time", JVal.dt ⟨2020, 1, 1, 10, 0, 0, 0⟩),
             ("message", JVal.null)])]]) ++
            [JVal.obj (setKey (setKey [("start", JVal.obj
              [("time", JVal.dt ⟨2020, 1, 1, 10, 0, 0, 0⟩),
               ("message", JVal.null)])] "stop"
              (stampJ ⟨2020, 1, 1, 11, 30, 15, 0⟩ (some "done"))) "delta"
              (JVal.td (dtSub ⟨2020, 1, 1, 11, 30, 15, 0⟩
                ⟨2020, 1, 1, 10, 0, 0, 0⟩)))])))) :=
  ⟨c5_stop_behavior.1 _ _ _ rfl,
   c5_stop_behavior.2 _ _ _ _ _ _ _ rfl rfl rfl rfl⟩

/-! ## C6: restore runs in all cases; only the stash pop is swallowed -/

/-- C6: after the validity checks, whatever the body does (success or
any failure), the `finally` block checks out the original branch and —
when that checkout succeeds — attempts the stash pop; the pop's own
failure never affects the outcome (the `except: pass` swallows it),
while a body failure (stash save, branch create, checkout, load,
command, commit) or a failure of the final checkout is raised to the
caller. -/
theorem c6_restore_cleanup (env : Env) (cfg : Config) (cmd : Cmd) (now : DT)
    (h1 : env.repoValid = true) (h2 : env.cmdKnown = true)
    (h3 : env.headsNonempty = true) :
    ((runMain env cfg cmd now).trace
      = (runBody env cfg cmd now).1 ++ .checkout env.origBranch ::
        (if env.checkoutOrigOk then [.stashPop] else []))
    ∧ (env.checkoutOrigOk = false →
        (runMain env cfg cmd now).outcome = .raised .checkoutOrigFail)
    ∧ (env.checkoutOrigOk = true →
        (runMain env cfg cmd now).outcome
          = (match (runBody env cfg cmd now).2.1 with
             | none => .ok
             | some e => .raised e))
    ∧ (env.stashOk = false → env.checkoutOrigOk = true →
        (runMain env cfg cmd now).outcome = .raised .stashFail)
    ∧ (∀ b : Bool, (runMain { env with popOk := b } cfg cmd now).outcome
        = (runMain env cfg cmd now).outcome) := by
  refine ⟨?_, ?_, ?_, ?_, fun b => rfl⟩
  · rcases hrb : runBody env cfg cmd now with ⟨bacts, berr, t⟩
    unfold runMain
    by_cases hco : env.checkoutOrigOk <;> simp [h1, h2, h3, hrb, hco]
  · intro hco
    rcases hrb : runBody env cfg cmd now with ⟨bacts, berr, t⟩
    unfold runMain
    simp [h1, h2, h3, hrb, hco]
  · intro hco
    rcases hrb : runBody env cfg cmd now with ⟨bacts, berr, t⟩
    unfold runMain
    simp [h1, h2, h3, hrb, hco]
  · intro hs hco
    have hrb : runBody env cfg cmd now = ([.stashSave], some .stashFail, none) := by
      unfold runBody
      simp [hs]
    unfold runMain
    simp [h1, h2, h3, hrb, hco]

theorem c6_restore_witness :
    ((runMain (Env.mk true true true "main" true true true true
        Payload.notJson true true true) (Config.mk "hammertime" none)
        Cmd.show ⟨2020, 1, 1, 0, 0, 0, 1⟩).trace
      = (runBody (Env.mk true true true "main" true true true true
          Payload.notJson true true true) (Config.mk "hammertime" none)
          Cmd.show ⟨2020, 1, 1, 0, 0, 0, 1⟩).1 ++ .checkout "main" ::
          (if true then [.stashPop] else []))
    ∧ (runMain (Env.mk true true true "main" true true true true
        Payload.notJson true true true) (Config.mk "hammertime" none)
        Cmd.show ⟨2020, 1, 1, 0, 0, 0, 1⟩).outcome = .ok :=
  ⟨(c6_restore_cleanup _ _ _ _ rfl rfl rfl).1,
   (c6_restore_cleanup (Env.mk true true true "main" true true true true
      Payload.notJson true true true) (Config.mk "hammertime" none)
      Cmd.show ⟨2020, 1, 1, 0, 0, 0, 1⟩ rfl rfl rfl).2.2.1 rfl⟩

/-! ## C7: show and total are read-only -/

theorem runMain_trace_eq (env : Env) (cfg : Config) (cmd : Cmd) (now : DT)
    (h1 : env.repoValid = true) (h2 : env.cmdKnown = true)
    (h3 : env.headsNonempty = true) :
    (runMain env cfg cmd now).trace
      = (runBody env cfg cmd now).1 ++ .checkout env.origBranch ::
        (if env.checkoutOrigOk then [.stashPop] else []) := by
  rcases hrb : runBody env cfg cmd now with ⟨bacts, berr, t⟩
  unfold runMain
  by_cases hco : env.checkoutOrigOk <;> simp [h1, h2, h3, hrb, hco]

theorem runMain_timerAfter_eq (env : Env) (cfg : Config) (cmd : Cmd) (now : DT)
    (h1 : env.repoValid = true) (h2 : env.cmdKnown = true)
    (h3 : env.headsNonempty = true) :
    (runMain env cfg cmd now).timerAfter = (runBody env cfg cmd now).2.2 := by
  rcases hrb : runBody env cfg cmd now with ⟨bacts, berr, t⟩
  unfold runMain
  by_cases hco : env.checkoutOrigOk <;> simp [h1, h2, h3, hrb, hco]

set_option maxHeartbeats 1600000 in
theorem runBody_no_write (env : Env) (cfg : Config) (cmd : Cmd) (now : DT)
    (hc : cmd = Cmd.show ∨ cmd = Cmd.total ∨ cmd = Cmd.default) :
    Act.stage ∉ (runBody env cfg cmd now).1
    ∧ (∀ m, Act.commit m ∉ (runBody env cfg cmd now).1) := by
  rcases hc with rfl | rfl | rfl <;>
    (unfold runBody
     refine ⟨?_, fun m => ?_⟩ <;> (repeat' split) <;> simp_all)

set_option maxHeartbeats 1600000 in
theorem runBody_timer_ro (env : Env) (cfg : Config) (cmd : Cmd) (now : DT)
    (hc : cmd = Cmd.show ∨ cmd = Cmd.total) :
    (runBody env cfg cmd now).2.2 = none
    ∨ (runBody env cfg cmd now).2.2 = initTimer env.payload := by
  rcases hc with rfl | rfl <;>
    (unfold runBody
     repeat' split) <;>
    simp_all

/-- C7: for invocations that pass the validity checks, the `show` and
`total` commands never stage or commit the storage file and leave the
in-memory log exactly as loaded; a commit appears in the trace only for
the `start` and `stop` commands. -/
theorem c7_show_total_pure (env : Env) (cfg : Config) (cmd : Cmd) (now : DT)
    (h1 : env.repoValid = true) (h2 : env.cmdKnown = true)
    (h3 : env.headsNonempty = true) :
    ((cmd = Cmd.show ∨ cmd = Cmd.total) →
      Act.stage ∉ (runMain env cfg cmd now).trace
      ∧ (∀ m, Act.commit m ∉ (runMain env cfg cmd now).trace)
      ∧ ((runMain env cfg cmd now).timerAfter = none
         ∨ (runMain env cfg cmd now).timerAfter = initTimer env.payload))
    ∧ (∀ m, Act.commit m ∈ (runMain env cfg cmd now).trace →
        cmd = Cmd.start ∨ cmd = Cmd.stop) := by
  constructor
  · intro hc
    have hb := runBody_no_write env cfg cmd now
      (by rcases hc with h | h; exact Or.inl h; exact Or.inr (Or.inl h))
    refine ⟨?_, ?_, ?_⟩
    · rw [runMain_trace_eq env cfg cmd now h1 h2 h3]
      by_cases hco : env.checkoutOrigOk <;> simp [hco, hb.1]
    · intro m
      rw [runMain_trace_eq env cfg cmd now h1 h2 h3]
      by_cases hco : env.checkoutOrigOk <;> simp [hco, hb.2 m]
    · rw [runMain_timerAfter_eq env cfg cmd now h1 h2 h3]
      exact runBody_timer_ro env cfg cmd now hc
  · intro m hm
    cases cmd
    · exact Or.inl rfl
    · exact Or.inr rfl
    · exfalso
      have hb := runBody_no_write env cfg Cmd.show now (Or.inl rfl)
      rw [runMain_trace_eq env cfg Cmd.show now h1 h2 h3] at hm
      revert hm
      by_cases hco : env.checkoutOrigOk <;> simp [hco, hb.2 m]
    · exfalso
      have hb := runBody_no_write env cfg Cmd.total now (Or.inr (Or.inl rfl))
      rw [runMain_trace_eq env cfg Cmd.total now h1 h2 h3] at hm
      revert hm
      by_cases hco : env.checkoutOrigOk <;> simp [hco, hb.2 m]
    · exfalso
      have hb := runBody_no_write env cfg Cmd.default now (Or.inr (Or.inr rfl))
      rw [runMain_trace_eq env cfg Cmd.default now h1 h2 h3] at hm
      revert hm
      by_cases hco : env.checkoutOrigOk <;> simp [hco, hb.2 m]

theorem c7_show_total_witness :
    Act.stage ∉ (runMain (Env.mk true true true "main" true true true true
      Payload.notJson true true true) (Config.mk "hammertime" none)
      Cmd.show ⟨2020, 1, 1, 0, 0, 0, 1⟩).trace :=
  ((c7_show_total_pure _ _ _ _ rfl rfl rfl).1 (Or.inl rfl)).1
